import Mathlib

/-!
Shallow embedding of the dmssvc supervisor (src/dms.go, src/main.go):
the ffprobe result cache with its JSON snapshot persistence, the
service Stop path, the interface monitor tick, and the allowed-IP
network parser.  External collaborators (the rrcache library, the Go
standard library's file system, JSON codec and IP parsers) are modelled
by explicit state or oracle parameters; the control flow of the
repository's own functions is translated line by line.
-/

/-- Go error values, as far as identity matters to this program.
`os.Remove` and `os.Open` return a `*PathError` wrapping an underlying
error such as `os.ErrNotExist`; a Go `==` comparison against the bare
sentinel `os.ErrNotExist` sees the wrapper, not the wrapped value, so
`pathErr errNotExist ≠ errNotExist` here, exactly as in Go. -/
inductive GoErr : Type
  | errNotExist
  | decodeFail
  | pathErr (e : GoErr)
  | other (n : Nat)
deriving DecidableEq, Repr

/-- Contents of one file: either a well-formed JSON snapshot (an array
of key/value records, mirroring `[]dms.FfprobeCacheItem`) or bytes that
do not decode (also the state of a freshly created, not yet encoded
temporary file). -/
inductive FileContent (κ ν : Type) : Type
  | items (l : List (κ × ν))
  | malformed
deriving DecidableEq

/-- A file system: an association list from path to content. -/
abbrev FS (κ ν : Type) := List (String × FileContent κ ν)

/-- Look a path up in the file system. -/
def fsFind (fs : FS κ ν) (p : String) : Option (FileContent κ ν) :=
  match fs with
  | [] => none
  | (q, c) :: rest => if q = p then some c else fsFind rest p

/-- Create or overwrite the file at path `p` with content `c`. -/
def fsSet (fs : FS κ ν) (p : String) (c : FileContent κ ν) : FS κ ν :=
  (p, c) :: fs.filter (fun e => decide (e.1 ≠ p))

/-- Delete the file at path `p` (no-op when absent). -/
def fsRemove (fs : FS κ ν) (p : String) : FS κ ν :=
  fs.filter (fun e => decide (e.1 ≠ p))

/-- One entry of the rrcache table: key, value, and the size charged
against the capacity when the entry was inserted. -/
structure Entry (κ ν : Type) where
  key : κ
  value : ν
  size : Nat
deriving DecidableEq, Repr

/-- Total charged size of a list of entries. -/
def entriesSize (l : List (Entry κ ν)) : Nat :=
  (l.map (fun e => e.size)).sum

/-- Modelled from the spec: the foreign `rrcache.RRCache` library that
`fFprobeCache` embeds — a table of entries bounded by a fixed capacity
in total charged size (spec section 4.1). -/
structure RRCache (κ ν : Type) where
  capacity : Nat
  entries : List (Entry κ ν)
deriving DecidableEq, Repr

/-- Modelled from the spec: random eviction.  While the total size
exceeds the capacity and more than one entry remains, evict an entry
chosen by the random oracle; a single item is tolerated above capacity
(spec section 4.1: eviction by random selection until within capacity
or no further eviction is possible, oversized single items are not
rejected).  Fuel bounds the loop; it is called with enough fuel to
evict every entry. -/
def evictLoop (oracle : Nat → Nat) (cap : Nat) :
    Nat → List (Entry κ ν) → List (Entry κ ν)
  | 0, l => l
  | fuel + 1, l =>
    if entriesSize l ≤ cap ∨ l.length ≤ 1 then l
    else evictLoop oracle cap fuel (l.eraseIdx (oracle fuel % l.length))

/-- Modelled from the spec: `rrcache.Set` replaces any entry with the
same key, inserts the new entry with the caller-computed size, then
evicts randomly while over capacity (spec section 4.1). -/
def RRCache.Set [DecidableEq κ] (oracle : Nat → Nat) (c : RRCache κ ν)
    (k : κ) (v : ν) (size : Nat) : RRCache κ ν :=
  let kept := c.entries.filter (fun e => decide (e.key ≠ k))
  let inserted := Entry.mk k v size :: kept
  ⟨c.capacity, evictLoop oracle c.capacity inserted.length inserted⟩

/-- Modelled from the spec: `rrcache.Items` snapshots the key/value
pairs of all entries (sizes are not part of the snapshot). -/
def RRCache.Items (c : RRCache κ ν) : List (κ × ν) :=
  c.entries.map (fun e => (e.key, e.value))

/-- Oracle for `json.Marshal` as used in `fFprobeCache.Set`: the
serialized byte length of a key or value, or `none` when marshalling
fails. -/
structure MarshalEnv (κ ν : Type) where
  keyLen : κ → Option Nat
  valLen : ν → Option Nat

/-- The size `fFprobeCache.Set` computes: the marshalled lengths of key
and value summed, a failing component contributing zero
(src/dms.go lines 104-117: `err != nil` logs and `continue`s). -/
def computeSize (env : MarshalEnv κ ν) (k : κ) (v : ν) : Nat :=
  (env.keyLen k).getD 0 + (env.valLen v).getD 0

/-- Log messages the modelled functions emit. -/
inductive LogEvent : Type
  | couldNotMarshalKey
  | couldNotMarshalValue
  | unparseableExpr (s : String)
  | unparseableIp (s : String)
deriving DecidableEq, Repr

/-- The repository's cache wrapper (src/dms.go lines 93-96); the mutex
is not represented, the embedding being sequential. -/
structure fFprobeCache (κ ν : Type) where
  c : RRCache κ ν
deriving DecidableEq, Repr

/-- `fFprobeCache.Set` (src/dms.go lines 104-117): marshal key and
value, logging and skipping a component whose marshalling fails, sum
the lengths into `size`, and insert into the embedded rrcache. -/
def fFprobeCache.Set [DecidableEq κ] (oracle : Nat → Nat)
    (env : MarshalEnv κ ν) (fc : fFprobeCache κ ν) (k : κ) (v : ν) :
    fFprobeCache κ ν × List LogEvent :=
  let logs :=
    (if (env.keyLen k).isNone then [LogEvent.couldNotMarshalKey] else []) ++
    (if (env.valLen v).isNone then [LogEvent.couldNotMarshalValue] else [])
  (⟨RRCache.Set oracle fc.c k v (computeSize env k v)⟩, logs)

/-- `fFprobeCache.load` (src/dms.go lines 237-254): open the file
(`os.Open` of an absent path fails with a `*PathError` wrapping
`ErrNotExist`, which `load` returns), decode the snapshot (a decoding
failure is returned), and re-insert every record through `Set`. -/
def fFprobeCache.load [DecidableEq κ] (env : MarshalEnv κ ν)
    (oracle : Nat → Nat) (fs : FS κ ν) (path : String)
    (fc : fFprobeCache κ ν) : fFprobeCache κ ν × Option GoErr :=
  match fsFind fs path with
  | none => (fc, some (GoErr.pathErr GoErr.errNotExist))
  | some FileContent.malformed => (fc, some GoErr.decodeFail)
  | some (FileContent.items l) =>
      (l.foldl (fun acc kv => (fFprobeCache.Set oracle env acc kv.1 kv.2).1) fc,
       none)

/-- Oracles for the file-system steps of `fFprobeCache.save`:
the operating system name, the outcome of `os.CreateTemp`, the fresh
temporary file name it picks, the outcome of `enc.Encode`, the
underlying error of `os.Remove(path)` when the destination exists
(`none` means the removal succeeds), and the outcome of `os.Rename`. -/
structure SaveEnv where
  goos : String
  createTempErr : Option GoErr
  tmpName : String
  encodeErr : Option GoErr
  removeDestErr : Option GoErr
  renameErr : Option GoErr
deriving DecidableEq, Repr

/-- `fFprobeCache.save` (src/dms.go lines 256-286): snapshot the
items, create a temporary file next to `path`, encode the snapshot
into it (deleting the temporary file and returning the error on
failure), on Windows remove the destination first — neutralising the
error only if it `==` the bare sentinel `os.ErrNotExist`, which
`os.Remove` never returns (it wraps it in a `*PathError`) — then
rename the temporary file over `path`; on any remaining error the
temporary file is deleted and the error returned. -/
def fFprobeCache.save (senv : SaveEnv) (fs : FS κ ν) (path : String)
    (fc : fFprobeCache κ ν) : FS κ ν × Option GoErr :=
  let items := RRCache.Items fc.c
  match senv.createTempErr with
  | some e => (fs, some e)
  | none =>
    let fs1 := fsSet fs senv.tmpName FileContent.malformed
    match senv.encodeErr with
    | some e => (fsRemove fs1 senv.tmpName, some e)
    | none =>
      let fs2 := fsSet fs1 senv.tmpName (FileContent.items items)
      let step3 : FS κ ν × Option GoErr :=
        if senv.goos = "windows" then
          match fsFind fs2 path with
          | none => (fs2, some (GoErr.pathErr GoErr.errNotExist))
          | some _ =>
            match senv.removeDestErr with
            | none => (fsRemove fs2 path, none)
            | some e => (fs2, some (GoErr.pathErr e))
        else (fs2, none)
      let err1 : Option GoErr :=
        if step3.2 = some GoErr.errNotExist then none else step3.2
      let step4 : FS κ ν × Option GoErr :=
        match err1 with
        | some e => (step3.1, some e)
        | none =>
          match senv.renameErr with
          | some e => (step3.1, some e)
          | none =>
            (fsSet (fsRemove step3.1 senv.tmpName) path
               (FileContent.items items), none)
      match step4.2 with
      | none => (step4.1, none)
      | some e => (fsRemove step4.1 senv.tmpName, some e)

/-- What one call to `program.Stop` did: whether it died in
`log.Fatal`, whether the cache save was attempted and its failure
logged, whether the quit channel was closed and the wait group
awaited, and the value returned (when it returned). -/
structure StopTrace where
  fatalErr : Option GoErr
  saveAttempted : Bool
  saveErrLogged : Bool
  quitSignaled : Bool
  waitedForLoop : Bool
  returnValue : Option GoErr
deriving DecidableEq, Repr

/-- `program.Stop` (src/main.go lines 70-83): close the server — on a
Close error `log.Fatal` terminates the process at once — then save the
cache (a save failure is logged, not returned), close the quit
channel, wait for the background loop, and return nil. -/
def progStop (closeErr : Option GoErr) (senv : SaveEnv) (fs : FS κ ν)
    (path : String) (fc : fFprobeCache κ ν) : StopTrace × FS κ ν :=
  match closeErr with
  | some e => (⟨some e, false, false, false, false, none⟩, fs)
  | none =>
    let r := fFprobeCache.save senv fs path fc
    (⟨none, true, r.2.isSome, true, true, none⟩, r.1)

/-- A network interface as `getInterfaces` inspects it: name, flag
bits, MTU. -/
structure NetInterface where
  name : String
  flags : Nat
  mtu : Int
deriving DecidableEq, Repr

/-- The `net.FlagUp` bit (the lowest flag bit in Go's net package). -/
def flagUp : Nat := 1

/-- The filter loop of `getInterfaces` (src/dms.go lines 419-426):
keep an interface unless its up flag is clear or its MTU is not
positive. -/
def upFilter (ifs : List NetInterface) : List NetInterface :=
  ifs.filter (fun i => !((i.flags &&& flagUp == 0) || decide (i.mtu ≤ 0)))

/-- `getInterfaces` (src/dms.go lines 405-428) over `sys`, the list the
operating system reports: with an empty name take all interfaces,
otherwise look the named interface up — a failed lookup is fatal
(`log.Fatal`), modelled as `none` — and keep only up interfaces with
positive MTU. -/
def getInterfaces (ifName : String) (sys : List NetInterface) :
    Option (List NetInterface) :=
  if ifName = "" then some (upFilter sys)
  else
    match sys.find? (fun i => i.name == ifName) with
    | some i => some (upFilter [i])
    | none => none

/-- The `dms.Server` handle as the monitor loop sees it: the interface
list it was constructed with. -/
structure DmsServer where
  Interfaces : List NetInterface
deriving DecidableEq, Repr

/-- Outcome of one monitor tick body. -/
inductive TickOutcome : Type
  | fatalLookup
  | noop
  | fatalClose (e : GoErr)
  | fatalInit (e : GoErr)
  | replaced (srv : DmsServer)
deriving DecidableEq, Repr

/-- One iteration of the monitor loop (src/dms.go lines 213-232):
recompute the up-interface list; if the running server is bound to
strictly fewer interfaces, close it (`log.Fatal` on error), construct
a new server bound to the new list, init it (`log.Fatal` on error) and
launch its run loop; otherwise do nothing until the next tick. -/
def monitorTick (closeErr initErr : Option GoErr) (ifName : String)
    (sys : List NetInterface) (srv : DmsServer) : TickOutcome :=
  match getInterfaces ifName sys with
  | none => TickOutcome.fatalLookup
  | some ifs =>
    if srv.Interfaces.length < ifs.length then
      match closeErr with
      | some e => TickOutcome.fatalClose e
      | none =>
        match initErr with
        | some e => TickOutcome.fatalInit e
        | none => TickOutcome.replaced ⟨ifs⟩
    else TickOutcome.noop

/-- Oracles for the Go net parsers used by `makeIpNets`:
`net.ParseIP` (an address, or `none` on failure) and `net.ParseCIDR`
(the masked network, or `none` on failure).  A `none` network result
models Go's nil `*net.IPNet` alongside a non-nil error. -/
structure ParseEnv (IP IPNet : Type) where
  parseIP : String → Option IP
  parseCIDR : String → Option IPNet

/-- The per-element body of `makeIpNets` (src/dms.go lines 323-342):
an element that parses as an IP is kept as the network of
`element ++ "/32"`; otherwise an element that parses as a CIDR is kept
as that network; anything else is only logged. -/
def elemNets (env : ParseEnv IP IPNet) (el : String) :
    List (Option IPNet) × List LogEvent :=
  match env.parseIP el with
  | none =>
    match env.parseCIDR el with
    | some n => ([some n], [])
    | none => ([], [LogEvent.unparseableExpr el])
  | some _ =>
    match env.parseCIDR (el ++ "/32") with
    | some n => ([some n], [])
    | none => ([], [LogEvent.unparseableIp el])

/-- `makeIpNets` (src/dms.go lines 315-345): the empty string yields
the two universal networks parsed from "0.0.0.0/0" and "::/0" (errors
ignored); a non-empty string is split on commas and each element
processed by `elemNets`.  The function returns no error. -/
def makeIpNets (env : ParseEnv IP IPNet) (s : String) :
    List (Option IPNet) × List LogEvent :=
  if s.length < 1 then
    ([env.parseCIDR "0.0.0.0/0", env.parseCIDR "::/0"], [])
  else
    (s.splitOn ",").foldl
      (fun acc el =>
        let r := elemNets env el
        (acc.1 ++ r.1, acc.2 ++ r.2))
      ([], [])

/-! Helper lemmas about the file-system model. -/

theorem fsFind_filter_ne (fs : FS κ ν) (p q : String) :
    fsFind (fs.filter (fun e => decide (e.1 ≠ p))) q =
      if q = p then none else fsFind fs q := by
  induction fs with
  | nil => simp [fsFind]
  | cons hd tl ih =>
    obtain ⟨a, b⟩ := hd
    by_cases ha : a = p <;> by_cases hq : q = p <;> by_cases haq : a = q <;>
      simp_all [List.filter_cons, fsFind]

theorem fsFind_fsRemove (fs : FS κ ν) (p q : String) :
    fsFind (fsRemove fs p) q = if q = p then none else fsFind fs q :=
  fsFind_filter_ne fs p q

theorem fsFind_fsSet (fs : FS κ ν) (p : String) (c : FileContent κ ν)
    (q : String) :
    fsFind (fsSet fs p c) q = if q = p then some c else fsFind fs q := by
  by_cases hq : q = p
  · subst hq; simp [fsSet, fsFind]
  · have hpq : ¬ p = q := fun h => hq h.symm
    rw [fsSet]
    rw [show fsFind ((p, c) :: List.filter (fun e => decide (e.1 ≠ p)) fs) q =
          if p = q then some c
          else fsFind (List.filter (fun e => decide (e.1 ≠ p)) fs) q from rfl]
    rw [if_neg hpq, fsFind_filter_ne, if_neg hq, if_neg hq]

/-! Helper lemmas about the eviction loop. -/

theorem evictLoop_eq_self (oracle : Nat → Nat) (cap fuel : Nat)
    (l : List (Entry κ ν))
    (h : entriesSize l ≤ cap ∨ l.length ≤ 1) :
    evictLoop oracle cap fuel l = l := by
  cases fuel with
  | zero => rfl
  | succ n => rw [evictLoop, if_pos h]

theorem mem_of_mem_evictLoop (oracle : Nat → Nat) (cap : Nat) :
    ∀ (fuel : Nat) (l : List (Entry κ ν)) (e : Entry κ ν),
      e ∈ evictLoop oracle cap fuel l → e ∈ l := by
  intro fuel
  induction fuel with
  | zero => intro l e h; exact h
  | succ n ih =>
    intro l e h
    rw [evictLoop] at h
    split at h
    · exact h
    · exact List.eraseIdx_subset _ _ (ih _ _ h)

theorem filter_keys_eq_self [DecidableEq κ] (l : List (Entry κ ν)) (k : κ)
    (h : k ∉ l.map (fun e => e.key)) :
    l.filter (fun e => decide (e.key ≠ k)) = l := by
  apply List.filter_eq_self.mpr
  intro e he
  simp only [decide_eq_true_eq]
  intro hek
  exact h (by rw [← hek]; exact List.mem_map_of_mem _ he)

/-! Claim C1: load on a missing path. -/

/-- C1 (counterexample): on an empty file system, `load` of a path
that names no file leaves the cache empty but returns the open error,
so the claim that it "returns no error" is false at this input. -/
theorem load_missing_path_claim_false :
    ¬ (((fFprobeCache.load (MarshalEnv.mk (fun _ => some 1) (fun _ => some 1))
          (fun _ => 0) ([] : FS Nat Nat) "p"
          ⟨⟨100, []⟩⟩).1.c.entries = []) ∧
        ((fFprobeCache.load (MarshalEnv.mk (fun _ => some 1) (fun _ => some 1))
          (fun _ => 0) ([] : FS Nat Nat) "p"
          ⟨⟨100, []⟩⟩).2 = none)) := by
  decide

/-- C1 (amended): `load` on a path that names no existing file inserts
no entries — the cache is returned unchanged — and returns the
`os.Open` error (a path error wrapping not-exist), which the caller in
`runErr` logs without aborting. -/
theorem load_missing_path_unchanged [DecidableEq κ] (env : MarshalEnv κ ν)
    (oracle : Nat → Nat) (fs : FS κ ν) (path : String)
    (fc : fFprobeCache κ ν) (h : fsFind fs path = none) :
    fFprobeCache.load env oracle fs path fc =
      (fc, some (GoErr.pathErr GoErr.errNotExist)) := by
  rw [fFprobeCache.load, h]

theorem load_missing_path_unchanged_witness :
    fsFind ([] : FS Nat Nat) "p" = none ∧
    fFprobeCache.load (MarshalEnv.mk (fun _ => some 1) (fun _ => some 1))
        (fun _ => 0) ([] : FS Nat Nat) "p" ⟨⟨100, []⟩⟩ =
      (⟨⟨100, []⟩⟩, some (GoErr.pathErr GoErr.errNotExist)) :=
  ⟨rfl, load_missing_path_unchanged _ _ _ _ _ rfl⟩

/-! Claim C2: the Stop path. -/

/-- C2 (counterexample): when the server's Close returns an error,
`Stop` reaches `log.Fatal`: its trace records a fatal exit with no
save attempt, no quit signal and no wait, so the claim that every
Close outcome still persists the cache and proceeds is false at this
input. -/
theorem stop_close_failure_claim_false :
    ¬ (((progStop (some (GoErr.other 7))
            (SaveEnv.mk "linux" none "t" none none none)
            ([] : FS Nat Nat) "p" ⟨⟨100, []⟩⟩).1.fatalErr = none) ∧
        ((progStop (some (GoErr.other 7))
            (SaveEnv.mk "linux" none "t" none none none)
            ([] : FS Nat Nat) "p" ⟨⟨100, []⟩⟩).1.saveAttempted = true) ∧
        ((progStop (some (GoErr.other 7))
            (SaveEnv.mk "linux" none "t" none none none)
            ([] : FS Nat Nat) "p" ⟨⟨100, []⟩⟩).1.quitSignaled = true) ∧
        ((progStop (some (GoErr.other 7))
            (SaveEnv.mk "linux" none "t" none none none)
            ([] : FS Nat Nat) "p" ⟨⟨100, []⟩⟩).1.waitedForLoop = true)) := by
  decide

/-- C2 (amended): when Close succeeds, `Stop` attempts the cache save
(logging, not returning, a save failure), signals the quit condition,
waits for the background loop and returns nil; when Close fails,
`Stop` logs the error fatally and the process terminates with no save
attempt, no quit signal and no wait. -/
theorem stop_spec (closeErr : Option GoErr) (senv : SaveEnv)
    (fs : FS κ ν) (path : String) (fc : fFprobeCache κ ν) :
    (closeErr = none →
      progStop closeErr senv fs path fc =
        (⟨none, true, (fFprobeCache.save senv fs path fc).2.isSome,
            true, true, none⟩,
          (fFprobeCache.save senv fs path fc).1)) ∧
    (∀ e, closeErr = some e →
      progStop closeErr senv fs path fc =
        (⟨some e, false, false, false, false, none⟩, fs)) := by
  constructor
  · intro h; subst h; rfl
  · intro e h; subst h; rfl

theorem stop_spec_witness :
    progStop (none : Option GoErr) (SaveEnv.mk "linux" none "t" none none none)
        ([] : FS Nat Nat) "p" ⟨⟨100, []⟩⟩ =
      (⟨none, true,
          (fFprobeCache.save (SaveEnv.mk "linux" none "t" none none none)
            ([] : FS Nat Nat) "p" ⟨⟨100, []⟩⟩).2.isSome, true, true, none⟩,
        (fFprobeCache.save (SaveEnv.mk "linux" none "t" none none none)
          ([] : FS Nat Nat) "p" ⟨⟨100, []⟩⟩).1) :=
  (stop_spec none (SaveEnv.mk "linux" none "t" none none none)
    ([] : FS Nat Nat) "p" ⟨⟨100, []⟩⟩).1 rfl

/-! Claim C6: Set under marshal failure. -/

/-- C6: when marshalling the key (resp. the value) fails, `Set` logs
the failure, charges zero for that component, and still inserts into
the underlying cache with the other component's serialized length as
the size. -/
theorem set_marshal_failure_spec [DecidableEq κ] (oracle : Nat → Nat)
    (env : MarshalEnv κ ν) (fc : fFprobeCache κ ν) (k : κ) (v : ν) :
    (env.keyLen k = none →
      (fFprobeCache.Set oracle env fc k v).1 =
        ⟨RRCache.Set oracle fc.c k v ((env.valLen v).getD 0)⟩ ∧
      LogEvent.couldNotMarshalKey ∈ (fFprobeCache.Set oracle env fc k v).2) ∧
    (env.valLen v = none →
      (fFprobeCache.Set oracle env fc k v).1 =
        ⟨RRCache.Set oracle fc.c k v ((env.keyLen k).getD 0)⟩ ∧
      LogEvent.couldNotMarshalValue ∈ (fFprobeCache.Set oracle env fc k v).2) := by
  constructor
  · intro h
    constructor
    · simp [fFprobeCache.Set, computeSize, h]
    · simp [fFprobeCache.Set, h]
  · intro h
    constructor
    · simp [fFprobeCache.Set, computeSize, h]
    · simp [fFprobeCache.Set, h]

theorem set_marshal_failure_spec_witness :
    (MarshalEnv.mk (fun _ => (none : Option Nat)) (fun _ => some 5)
        : MarshalEnv Nat Nat).keyLen 0 = none ∧
    ((fFprobeCache.Set (fun _ => 0)
        (MarshalEnv.mk (fun _ => (none : Option Nat)) (fun _ => some 5)
          : MarshalEnv Nat Nat)
        (⟨⟨100, []⟩⟩ : fFprobeCache Nat Nat) 0 1).1 =
      ⟨RRCache.Set (fun _ => 0) (⟨100, []⟩ : RRCache Nat Nat) 0 1
        ((some 5).getD 0)⟩ ∧
    LogEvent.couldNotMarshalKey ∈
      (fFprobeCache.Set (fun _ => 0)
        (MarshalEnv.mk (fun _ => (none : Option Nat)) (fun _ => some 5)
          : MarshalEnv Nat Nat)
        (⟨⟨100, []⟩⟩ : fFprobeCache Nat Nat) 0 1).2) :=
  ⟨rfl,
    (set_marshal_failure_spec (fun _ => 0)
      (MarshalEnv.mk (fun _ => (none : Option Nat)) (fun _ => some 5)
        : MarshalEnv Nat Nat)
      (⟨⟨100, []⟩⟩ : fFprobeCache Nat Nat) 0 1).1 rfl⟩

/-! Claim C7: the monitor tick trigger condition. -/

/-- C7: a tick is a no-op exactly when the number of available up
interfaces is not strictly greater than the number bound to the
running instance; when it is strictly greater (and close and init
succeed) the tick replaces the instance with one bound to the new
interface list. -/
theorem monitor_tick_replace_iff (closeErr initErr : Option GoErr)
    (ifName : String) (sys : List NetInterface) (srv : DmsServer)
    (avail : List NetInterface)
    (h : getInterfaces ifName sys = some avail) :
    (monitorTick closeErr initErr ifName sys srv = TickOutcome.noop ↔
      ¬ (srv.Interfaces.length < avail.length)) ∧
    (closeErr = none → initErr = none →
      srv.Interfaces.length < avail.length →
      monitorTick closeErr initErr ifName sys srv =
        TickOutcome.replaced ⟨avail⟩) := by
  constructor
  · simp only [monitorTick, h]
    by_cases hl : srv.Interfaces.length < avail.length
    · rw [if_pos hl]
      constructor
      · intro hcon
        cases hc : closeErr <;> cases hi : initErr <;> simp [hc, hi] at hcon
      · intro hcon; exact absurd hl hcon
    · rw [if_neg hl]
      exact ⟨fun _ => hl, fun _ => rfl⟩
  · intro h1 h2 h3
    subst h1; subst h2
    simp only [monitorTick, h]
    rw [if_pos h3]

theorem monitor_tick_replace_iff_witness :
    getInterfaces "" [NetInterface.mk "eth0" 1 1500, NetInterface.mk "lo" 1 65536,
        NetInterface.mk "down0" 0 1500] =
      some [NetInterface.mk "eth0" 1 1500, NetInterface.mk "lo" 1 65536] ∧
    ((monitorTick none none ""
        [NetInterface.mk "eth0" 1 1500, NetInterface.mk "lo" 1 65536,
          NetInterface.mk "down0" 0 1500]
        ⟨[NetInterface.mk "eth0" 1 1500]⟩ = TickOutcome.noop ↔
      ¬ ((DmsServer.mk [NetInterface.mk "eth0" 1 1500]).Interfaces.length <
          [NetInterface.mk "eth0" 1 1500, NetInterface.mk "lo" 1 65536].length)) ∧
    ((none : Option GoErr) = none → (none : Option GoErr) = none →
      (DmsServer.mk [NetInterface.mk "eth0" 1 1500]).Interfaces.length <
          [NetInterface.mk "eth0" 1 1500, NetInterface.mk "lo" 1 65536].length →
      monitorTick none none ""
        [NetInterface.mk "eth0" 1 1500, NetInterface.mk "lo" 1 65536,
          NetInterface.mk "down0" 0 1500]
        ⟨[NetInterface.mk "eth0" 1 1500]⟩ =
        TickOutcome.replaced
          ⟨[NetInterface.mk "eth0" 1 1500, NetInterface.mk "lo" 1 65536]⟩)) :=
  ⟨by decide,
    monitor_tick_replace_iff none none ""
      [NetInterface.mk "eth0" 1 1500, NetInterface.mk "lo" 1 65536,
        NetInterface.mk "down0" 0 1500]
      ⟨[NetInterface.mk "eth0" 1 1500]⟩
      [NetInterface.mk "eth0" 1 1500, NetInterface.mk "lo" 1 65536]
      (by decide)⟩

/-! Claim C10: makeIpNets. -/

theorem foldl_pair_append (f : String → List A × List B) :
    ∀ (ls : List String) (acc : List A × List B),
      ls.foldl (fun acc el => (acc.1 ++ (f el).1, acc.2 ++ (f el).2)) acc =
        (acc.1 ++ (ls.map (fun el => (f el).1)).flatten,
         acc.2 ++ (ls.map (fun el => (f el).2)).flatten) := by
  intro ls
  induction ls with
  | nil => intro acc; simp
  | cons hd tl ih =>
    intro acc
    rw [List.foldl_cons, ih]
    simp [List.append_assoc]

/-- C10: the empty string yields exactly the universal IPv4 and IPv6
networks; a non-empty string is split on commas, each element that
parses as an IP is kept as the network of the element suffixed with
"/32", each remaining element that parses as a CIDR expression is kept
as that network, and every unparseable element is skipped with only a
log message; the function has no error result. -/
theorem makeIpNets_spec (env : ParseEnv IP IPNet) (s : String)
    (univ4 univ6 : IPNet)
    (h4 : env.parseCIDR "0.0.0.0/0" = some univ4)
    (h6 : env.parseCIDR "::/0" = some univ6) :
    (s = "" → makeIpNets env s = ([some univ4, some univ6], [])) ∧
    (s ≠ "" →
      makeIpNets env s =
        (((s.splitOn ",").map (fun el => (elemNets env el).1)).flatten,
         ((s.splitOn ",").map (fun el => (elemNets env el).2)).flatten)) ∧
    (∀ el ip net, env.parseIP el = some ip →
      env.parseCIDR (el ++ "/32") = some net →
      elemNets env el = ([some net], [])) ∧
    (∀ el net, env.parseIP el = none → env.parseCIDR el = some net →
      elemNets env el = ([some net], [])) ∧
    (∀ el, env.parseIP el = none → env.parseCIDR el = none →
      elemNets env el = ([], [LogEvent.unparseableExpr el])) ∧
    (∀ el ip, env.parseIP el = some ip →
      env.parseCIDR (el ++ "/32") = none →
      elemNets env el = ([], [LogEvent.unparseableIp el])) := by
  refine ⟨?_, ?_, ?_, ?_, ?_, ?_⟩
  · intro hs
    subst hs
    rw [makeIpNets, if_pos (by decide), h4, h6]
  · intro hs
    have hlen : ¬ s.length < 1 := by
      rw [Nat.lt_one_iff]
      intro h0
      exact hs (String.ext (List.length_eq_zero.mp h0))
    rw [makeIpNets, if_neg hlen, foldl_pair_append (fun el => elemNets env el)]
    simp
  · intro el ip net hip hc
    rw [elemNets, hip, hc]
  · intro el net hip hc
    rw [elemNets, hip, hc]
  · intro el hip hc
    rw [elemNets, hip, hc]
  · intro el ip hip hc
    rw [elemNets, hip, hc]

theorem makeIpNets_spec_witness :
    (ParseEnv.mk (fun t => if t = "1.2.3.4" then some 0 else none)
        (fun t => if t = "0.0.0.0/0" then some "v4"
          else if t = "::/0" then some "v6" else none)
      : ParseEnv Nat String).parseCIDR "0.0.0.0/0" = some "v4" ∧
    (ParseEnv.mk (fun t => if t = "1.2.3.4" then some 0 else none)
        (fun t => if t = "0.0.0.0/0" then some "v4"
          else if t = "::/0" then some "v6" else none)
      : ParseEnv Nat String).parseCIDR "::/0" = some "v6" ∧
    makeIpNets
      (ParseEnv.mk (fun t => if t = "1.2.3.4" then some 0 else none)
        (fun t => if t = "0.0.0.0/0" then some "v4"
          else if t = "::/0" then some "v6" else none)
        : ParseEnv Nat String) "" = ([some "v4", some "v6"], []) :=
  ⟨by decide, by decide,
    (makeIpNets_spec
      (ParseEnv.mk (fun t => if t = "1.2.3.4" then some 0 else none)
        (fun t => if t = "0.0.0.0/0" then some "v4"
          else if t = "::/0" then some "v6" else none)
        : ParseEnv Nat String) "" "v4" "v6" (by decide) (by decide)).1 rfl⟩

/-! Claim C4: the Windows pre-rename removal. -/

/-- C4 (code bug): on Windows with no file at the destination path,
`os.Remove(path)` fails with a `*PathError` wrapping `ErrNotExist`;
the source's `err == os.ErrNotExist` comparison sees the wrapper and
stays false, so the error is kept, the rename is skipped, the
temporary file is deleted and save returns the not-exist error — the
destination is never written, contrary to the claim that this removal
error is neutralised and the rename proceeds. -/
theorem save_windows_missing_dest_bug :
    (fFprobeCache.save (SaveEnv.mk "windows" none "t" none none none)
        ([] : FS Nat Nat) "p" ⟨⟨100, [⟨1, 10, 2⟩]⟩⟩).2 =
      some (GoErr.pathErr GoErr.errNotExist) ∧
    fsFind (fFprobeCache.save (SaveEnv.mk "windows" none "t" none none none)
        ([] : FS Nat Nat) "p" ⟨⟨100, [⟨1, 10, 2⟩]⟩⟩).1 "p" = none ∧
    fsFind (fFprobeCache.save (SaveEnv.mk "windows" none "t" none none none)
        ([] : FS Nat Nat) "p" ⟨⟨100, [⟨1, 10, 2⟩]⟩⟩).1 "t" = none := by
  decide

/-! Claim C3: failures while writing the temporary file. -/

/-- C3: if creating or encoding the temporary file fails, save deletes
the temporary file, returns that error and leaves the previously
persisted file at the destination untouched; the destination is only
replaced when the temporary file was fully and successfully written
(temporary creation and encoding both succeeded). -/
theorem save_write_failure_preserves_dest (senv : SaveEnv) (fs : FS κ ν)
    (path : String) (fc : fFprobeCache κ ν)
    (hname : senv.tmpName ≠ path) :
    (∀ e, senv.createTempErr = some e →
      fFprobeCache.save senv fs path fc = (fs, some e)) ∧
    (∀ e, senv.createTempErr = none → senv.encodeErr = some e →
      (fFprobeCache.save senv fs path fc).2 = some e ∧
      fsFind (fFprobeCache.save senv fs path fc).1 senv.tmpName = none ∧
      fsFind (fFprobeCache.save senv fs path fc).1 path = fsFind fs path) ∧
    ((fsFind (fFprobeCache.save senv fs path fc).1 path ≠ fsFind fs path) →
      senv.createTempErr = none ∧ senv.encodeErr = none) := by
  have hpn : ¬ path = senv.tmpName := fun h => hname h.symm
  refine ⟨?_, ?_, ?_⟩
  · intro e h
    simp only [fFprobeCache.save, h]
  · intro e h1 h2
    simp only [fFprobeCache.save, h1, h2]
    refine ⟨trivial, ?_, ?_⟩
    · rw [fsFind_fsRemove, if_pos rfl]
    · rw [fsFind_fsRemove, if_neg hpn, fsFind_fsSet, if_neg hpn]
  · rcases hct : senv.createTempErr with _ | e
    · rcases hen : senv.encodeErr with _ | e
      · exact fun _ => ⟨rfl, rfl⟩
      · intro hcon
        exfalso
        apply hcon
        simp only [fFprobeCache.save, hct, hen]
        rw [fsFind_fsRemove, if_neg hpn, fsFind_fsSet, if_neg hpn]
    · intro hcon
      exfalso
      apply hcon
      simp only [fFprobeCache.save, hct]

theorem save_write_failure_preserves_dest_witness :
    ((SaveEnv.mk "linux" none "t" (some (GoErr.other 3)) none none).tmpName
        ≠ "p") ∧
    ((fFprobeCache.save (SaveEnv.mk "linux" none "t" (some (GoErr.other 3))
          none none)
        ([("p", FileContent.items [(9, 9)])] : FS Nat Nat) "p"
        ⟨⟨100, [⟨1, 10, 2⟩]⟩⟩).2 = some (GoErr.other 3) ∧
      fsFind (fFprobeCache.save
          (SaveEnv.mk "linux" none "t" (some (GoErr.other 3)) none none)
          ([("p", FileContent.items [(9, 9)])] : FS Nat Nat) "p"
          ⟨⟨100, [⟨1, 10, 2⟩]⟩⟩).1
        (SaveEnv.mk "linux" none "t" (some (GoErr.other 3)) none none).tmpName
        = none ∧
      fsFind (fFprobeCache.save
          (SaveEnv.mk "linux" none "t" (some (GoErr.other 3)) none none)
          ([("p", FileContent.items [(9, 9)])] : FS Nat Nat) "p"
          ⟨⟨100, [⟨1, 10, 2⟩]⟩⟩).1 "p" =
        fsFind ([("p", FileContent.items [(9, 9)])] : FS Nat Nat) "p") :=
  ⟨by decide,
    (save_write_failure_preserves_dest
      (SaveEnv.mk "linux" none "t" (some (GoErr.other 3)) none none)
      ([("p", FileContent.items [(9, 9)])] : FS Nat Nat) "p"
      ⟨⟨100, [⟨1, 10, 2⟩]⟩⟩ (by decide)).2.1 (GoErr.other 3) rfl rfl⟩

/-! Claim C9: every failing save removes the temporary file. -/

/-- C9: whenever the temporary file was created but save returns an
error — from encoding, from the Windows pre-rename removal, or from
the rename — the temporary file has been removed by the time save
returns. -/
theorem save_error_removes_tempfile (senv : SaveEnv) (fs : FS κ ν)
    (path : String) (fc : fFprobeCache κ ν) (e : GoErr)
    (hname : senv.tmpName ≠ path)
    (hct : senv.createTempErr = none)
    (herr : (fFprobeCache.save senv fs path fc).2 = some e) :
    fsFind (fFprobeCache.save senv fs path fc).1 senv.tmpName = none := by
  have hpn : ¬ path = senv.tmpName := fun h => hname h.symm
  rcases hen : senv.encodeErr with _ | e2
  · by_cases hw : senv.goos = "windows"
    · rcases hfp : fsFind fs path with _ | c
      · simp [fFprobeCache.save, hct, hen, hw, hfp, fsFind_fsSet,
          fsFind_fsRemove, hpn]
      · rcases hrd : senv.removeDestErr with _ | e4
        · rcases hrn : senv.renameErr with _ | e5
          · simp [fFprobeCache.save, hct, hen, hw, hfp, hrd, hrn,
              fsFind_fsSet, fsFind_fsRemove, hpn] at herr
          · simp [fFprobeCache.save, hct, hen, hw, hfp, hrd, hrn,
              fsFind_fsSet, fsFind_fsRemove, hpn]
        · simp [fFprobeCache.save, hct, hen, hw, hfp, hrd,
            fsFind_fsSet, fsFind_fsRemove, hpn]
    · rcases hrn : senv.renameErr with _ | e5
      · simp [fFprobeCache.save, hct, hen, hw, hrn] at herr
      · simp [fFprobeCache.save, hct, hen, hw, hrn, fsFind_fsSet,
          fsFind_fsRemove, hpn]
  · simp [fFprobeCache.save, hct, hen, fsFind_fsRemove]

theorem save_error_removes_tempfile_witness :
    ("t" : String) ≠ "p" ∧
    SaveEnv.createTempErr
        (SaveEnv.mk "linux" none "t" none none (some (GoErr.other 4))) = none ∧
    (fFprobeCache.save
        (SaveEnv.mk "linux" none "t" none none (some (GoErr.other 4)))
        ([] : FS Nat Nat) "p" ⟨⟨100, [⟨1, 10, 2⟩]⟩⟩).2 =
      some (GoErr.other 4) ∧
    fsFind (fFprobeCache.save
        (SaveEnv.mk "linux" none "t" none none (some (GoErr.other 4)))
        ([] : FS Nat Nat) "p" ⟨⟨100, [⟨1, 10, 2⟩]⟩⟩).1
      (SaveEnv.mk "linux" none "t" none none (some (GoErr.other 4))).tmpName
      = none :=
  ⟨by decide, rfl, by decide,
    save_error_removes_tempfile
      (SaveEnv.mk "linux" none "t" none none (some (GoErr.other 4)))
      ([] : FS Nat Nat) "p" ⟨⟨100, [⟨1, 10, 2⟩]⟩⟩ (GoErr.other 4)
      (by decide) rfl (by decide)⟩

/-! Claim C8: load re-inserts records through Set. -/

/-- Every entry's stored size is the one `Set` computes from the
marshalled lengths of its key and value. -/
def SizesConsistent (env : MarshalEnv κ ν) (fc : fFprobeCache κ ν) : Prop :=
  ∀ e ∈ fc.c.entries, e.size = computeSize env e.key e.value

theorem sizesConsistent_Set [DecidableEq κ] (oracle : Nat → Nat)
    (env : MarshalEnv κ ν) (fc : fFprobeCache κ ν) (k : κ) (v : ν)
    (h : SizesConsistent env fc) :
    SizesConsistent env (fFprobeCache.Set oracle env fc k v).1 := by
  intro e he
  simp only [fFprobeCache.Set, RRCache.Set] at he
  have he' := mem_of_mem_evictLoop _ _ _ _ _ he
  rcases List.mem_cons.mp he' with h1 | h2
  · subst h1; rfl
  · exact h e (List.mem_of_mem_filter h2)

theorem sizesConsistent_foldl [DecidableEq κ] (oracle : Nat → Nat)
    (env : MarshalEnv κ ν) :
    ∀ (l : List (κ × ν)) (fc : fFprobeCache κ ν), SizesConsistent env fc →
      SizesConsistent env
        (l.foldl (fun acc kv => (fFprobeCache.Set oracle env acc kv.1 kv.2).1)
          fc) := by
  intro l
  induction l with
  | nil => intro fc h; exact h
  | cons hd tl ih =>
    intro fc h
    exact ih _ (sizesConsistent_Set _ _ _ _ _ h)

/-- C8: on a well-formed snapshot file, `load` returns no error and is
exactly the fold of `Set` over the file's key/value records; since the
records carry no sizes, every entry of the loaded cache carries the
size recomputed by `Set` from the marshalled lengths at load time. -/
theorem load_reinserts_via_set [DecidableEq κ] (env : MarshalEnv κ ν)
    (oracle : Nat → Nat) (fs : FS κ ν) (path : String)
    (fc : fFprobeCache κ ν) (l : List (κ × ν))
    (h : fsFind fs path = some (FileContent.items l)) :
    fFprobeCache.load env oracle fs path fc =
      (l.foldl (fun acc kv => (fFprobeCache.Set oracle env acc kv.1 kv.2).1) fc,
        none) ∧
    (SizesConsistent env fc →
      SizesConsistent env (fFprobeCache.load env oracle fs path fc).1) := by
  have heq : fFprobeCache.load env oracle fs path fc =
      (l.foldl (fun acc kv => (fFprobeCache.Set oracle env acc kv.1 kv.2).1) fc,
        none) := by
    rw [fFprobeCache.load, h]
  refine ⟨heq, ?_⟩
  intro hc
  rw [heq]
  exact sizesConsistent_foldl _ _ _ _ hc

theorem load_reinserts_via_set_witness :
    fsFind ([("p", FileContent.items [(1, 10), (2, 20)])] : FS Nat Nat) "p" =
      some (FileContent.items [(1, 10), (2, 20)]) ∧
    fFprobeCache.load
        (MarshalEnv.mk (fun _ => some 1) (fun _ => some 1) : MarshalEnv Nat Nat)
        (fun _ => 0)
        ([("p", FileContent.items [(1, 10), (2, 20)])] : FS Nat Nat) "p"
        ⟨⟨100, []⟩⟩ =
      ([(1, 10), (2, 20)].foldl
          (fun acc kv =>
            (fFprobeCache.Set (fun _ => 0)
              (MarshalEnv.mk (fun _ => some 1) (fun _ => some 1)
                : MarshalEnv Nat Nat) acc kv.1 kv.2).1)
          ⟨⟨100, []⟩⟩,
        none) :=
  ⟨rfl,
    (load_reinserts_via_set
      (MarshalEnv.mk (fun _ => some 1) (fun _ => some 1) : MarshalEnv Nat Nat)
      (fun _ => 0)
      ([("p", FileContent.items [(1, 10), (2, 20)])] : FS Nat Nat) "p"
      ⟨⟨100, []⟩⟩ [(1, 10), (2, 20)] rfl).1⟩

/-! Claim C5: save/load round trip. -/

/-- Total size the loader will recompute for a snapshot. -/
def snapshotSize (env : MarshalEnv κ ν) (l : List (κ × ν)) : Nat :=
  (l.map (fun kv => computeSize env kv.1 kv.2)).sum

theorem items_map_fst (c : RRCache κ ν) :
    (RRCache.Items c).map Prod.fst = c.entries.map (fun e => e.key) := by
  simp [RRCache.Items, List.map_map, Function.comp]

theorem save_success_writes (senv : SaveEnv) (fs : FS κ ν) (path : String)
    (fc : fFprobeCache κ ν)
    (hs : (fFprobeCache.save senv fs path fc).2 = none) :
    fsFind (fFprobeCache.save senv fs path fc).1 path =
      some (FileContent.items (RRCache.Items fc.c)) := by
  rcases hct : senv.createTempErr with _ | e1
  · rcases hen : senv.encodeErr with _ | e2
    · by_cases hw : senv.goos = "windows"
      · rcases hfp : fsFind (fsSet (fsSet fs senv.tmpName FileContent.malformed)
            senv.tmpName (FileContent.items (RRCache.Items fc.c))) path
          with _ | c
        · simp [fFprobeCache.save, hct, hen, hw, hfp] at hs
        · rcases hrd : senv.removeDestErr with _ | e4
          · rcases hrn : senv.renameErr with _ | e5
            · simp [fFprobeCache.save, hct, hen, hw, hfp, hrd, hrn,
                fsFind_fsSet]
            · simp [fFprobeCache.save, hct, hen, hw, hfp, hrd, hrn] at hs
          · simp [fFprobeCache.save, hct, hen, hw, hfp, hrd] at hs
      · rcases hrn : senv.renameErr with _ | e5
        · simp [fFprobeCache.save, hct, hen, hw, hrn, fsFind_fsSet]
        · simp [fFprobeCache.save, hct, hen, hw, hrn] at hs
    · simp [fFprobeCache.save, hct, hen] at hs
  · simp [fFprobeCache.save, hct] at hs

theorem foldl_set_no_evict [DecidableEq κ] (oracle : Nat → Nat)
    (env : MarshalEnv κ ν) :
    ∀ (l : List (κ × ν)) (fc : fFprobeCache κ ν),
      (l.map Prod.fst).Nodup →
      (∀ kv ∈ l, kv.1 ∉ fc.c.entries.map (fun e => e.key)) →
      entriesSize fc.c.entries + snapshotSize env l ≤ fc.c.capacity →
      (l.foldl (fun acc kv => (fFprobeCache.Set oracle env acc kv.1 kv.2).1)
          fc).c =
        ⟨fc.c.capacity,
          (l.map (fun kv =>
            Entry.mk kv.1 kv.2 (computeSize env kv.1 kv.2))).reverse
            ++ fc.c.entries⟩ := by
  intro l
  induction l with
  | nil =>
    intro fc _ _ _
    simp
  | cons hd tl ih =>
    intro fc hnodup hdisj hsize
    obtain ⟨k, v⟩ := hd
    have hk : k ∉ fc.c.entries.map (fun e => e.key) :=
      hdisj (k, v) (List.mem_cons_self _ _)
    have hfilter : fc.c.entries.filter (fun e => decide (e.key ≠ k)) =
        fc.c.entries := filter_keys_eq_self _ _ hk
    have hsz : entriesSize
        (Entry.mk k v (computeSize env k v) :: fc.c.entries) ≤
          fc.c.capacity := by
      simp only [entriesSize, snapshotSize, List.map_cons, List.sum_cons]
        at hsize ⊢
      omega
    have hset : (fFprobeCache.Set oracle env fc k v).1.c =
        ⟨fc.c.capacity,
          Entry.mk k v (computeSize env k v) :: fc.c.entries⟩ := by
      simp only [fFprobeCache.Set, RRCache.Set, hfilter]
      congr 1
      exact evictLoop_eq_self _ _ _ _ (Or.inl hsz)
    simp only [List.map_cons, List.nodup_cons] at hnodup
    obtain ⟨hknotin, hnd⟩ := hnodup
    have hdisj' : ∀ kv ∈ tl, kv.1 ∉
        ((fFprobeCache.Set oracle env fc k v).1).c.entries.map
          (fun e => e.key) := by
      intro kv hkv
      rw [hset]
      simp only [List.map_cons]
      intro hmem
      rcases List.mem_cons.mp hmem with h1 | h2
      · exact hknotin (h1 ▸ List.mem_map_of_mem Prod.fst hkv)
      · exact hdisj kv (List.mem_cons_of_mem _ hkv) h2
    have hsz' : entriesSize ((fFprobeCache.Set oracle env fc k v).1).c.entries
        + snapshotSize env tl ≤
          ((fFprobeCache.Set oracle env fc k v).1).c.capacity := by
      rw [hset]
      simp only [entriesSize, snapshotSize, List.map_cons, List.sum_cons]
        at hsize ⊢
      omega
    have hrec := ih ((fFprobeCache.Set oracle env fc k v).1) hnd hdisj' hsz'
    rw [List.foldl_cons, hrec, hset]
    simp [List.reverse_cons, List.append_assoc]

/-- C5: after a successful save, loading the snapshot into a fresh,
empty cache returns no error and reproduces exactly the key/value
pairs of the Items snapshot taken at save time (in reverse insertion
order, hence the same key set and values), provided the snapshot's
keys are distinct (they come from one table) and its recomputed total
size fits the fresh cache's capacity or the snapshot is a single item
(the states reachable by Set). -/
theorem save_load_roundtrip [DecidableEq κ] (env : MarshalEnv κ ν)
    (oracle : Nat → Nat) (senv : SaveEnv) (fs : FS κ ν) (path : String)
    (st fresh : fFprobeCache κ ν)
    (hsave : (fFprobeCache.save senv fs path st).2 = none)
    (hfresh : fresh.c.entries = [])
    (hnodup : (st.c.entries.map (fun e => e.key)).Nodup)
    (hsize : snapshotSize env (RRCache.Items st.c) ≤ fresh.c.capacity ∨
      st.c.entries.length ≤ 1) :
    (fFprobeCache.load env oracle (fFprobeCache.save senv fs path st).1 path
        fresh).2 = none ∧
    (fFprobeCache.load env oracle (fFprobeCache.save senv fs path st).1 path
        fresh).1.c.entries.map (fun e => (e.key, e.value)) =
      (RRCache.Items st.c).reverse ∧
    (∀ kv, kv ∈ (fFprobeCache.load env oracle
        (fFprobeCache.save senv fs path st).1 path fresh).1.c.entries.map
          (fun e => (e.key, e.value)) ↔ kv ∈ RRCache.Items st.c) := by
  have hwrite := save_success_writes senv fs path st hsave
  have hload : fFprobeCache.load env oracle
      (fFprobeCache.save senv fs path st).1 path fresh =
      ((RRCache.Items st.c).foldl
          (fun acc kv => (fFprobeCache.Set oracle env acc kv.1 kv.2).1) fresh,
        none) := by
    rw [fFprobeCache.load, hwrite]
  have hmain : ((RRCache.Items st.c).foldl
      (fun acc kv => (fFprobeCache.Set oracle env acc kv.1 kv.2).1)
        fresh).c.entries =
      ((RRCache.Items st.c).map (fun kv =>
        Entry.mk kv.1 kv.2 (computeSize env kv.1 kv.2))).reverse := by
    rcases hsize with hs | hs
    · have hnd : ((RRCache.Items st.c).map Prod.fst).Nodup := by
        rw [items_map_fst]; exact hnodup
      have hdisj : ∀ kv ∈ RRCache.Items st.c,
          kv.1 ∉ fresh.c.entries.map (fun e => e.key) := by
        intro kv _
        simp [hfresh]
      have hsz : entriesSize fresh.c.entries +
          snapshotSize env (RRCache.Items st.c) ≤ fresh.c.capacity := by
        simp [hfresh, entriesSize]
        exact hs
      have := foldl_set_no_evict oracle env (RRCache.Items st.c) fresh
        hnd hdisj hsz
      rw [this]
      simp [hfresh]
    · rcases hst : st.c.entries with _ | ⟨e0, rest⟩
      · simp [RRCache.Items, hst, hfresh]
      · have hrest : rest = [] := by
          rw [hst] at hs
          simpa using hs
        subst hrest
        simp only [RRCache.Items, hst, List.map_cons, List.map_nil,
          List.foldl_cons, List.foldl_nil]
        simp [fFprobeCache.Set, RRCache.Set, hfresh, evictLoop]
  refine ⟨?_, ?_, ?_⟩
  · rw [hload]
  · rw [hload]
    simp only [hmain, List.map_reverse, List.map_map]
    congr 1
    simp [RRCache.Items, List.map_map, Function.comp]
  · intro kv
    rw [hload]
    simp only [hmain, List.map_reverse, List.map_map, List.mem_reverse]
    constructor
    · intro h
      rcases List.mem_map.mp h with ⟨x, hx, hxe⟩
      rw [← hxe]
      simpa using hx
    · intro h
      exact List.mem_map.mpr ⟨kv, h, by simp⟩

theorem save_load_roundtrip_witness :
    (fFprobeCache.save (SaveEnv.mk "linux" none "t" none none none)
        ([] : FS Nat Nat) "p" ⟨⟨100, [⟨1, 10, 2⟩, ⟨2, 20, 2⟩]⟩⟩).2 = none ∧
    (fFprobeCache.load
        (MarshalEnv.mk (fun _ => some 1) (fun _ => some 1) : MarshalEnv Nat Nat)
        (fun _ => 0)
        (fFprobeCache.save (SaveEnv.mk "linux" none "t" none none none)
          ([] : FS Nat Nat) "p" ⟨⟨100, [⟨1, 10, 2⟩, ⟨2, 20, 2⟩]⟩⟩).1 "p"
        ⟨⟨100, []⟩⟩).2 = none ∧
    (fFprobeCache.load
        (MarshalEnv.mk (fun _ => some 1) (fun _ => some 1) : MarshalEnv Nat Nat)
        (fun _ => 0)
        (fFprobeCache.save (SaveEnv.mk "linux" none "t" none none none)
          ([] : FS Nat Nat) "p" ⟨⟨100, [⟨1, 10, 2⟩, ⟨2, 20, 2⟩]⟩⟩).1 "p"
        ⟨⟨100, []⟩⟩).1.c.entries.map (fun e => (e.key, e.value)) =
      (RRCache.Items
        (⟨100, [⟨1, 10, 2⟩, ⟨2, 20, 2⟩]⟩ : RRCache Nat Nat)).reverse :=
  ⟨by decide,
    (save_load_roundtrip
      (MarshalEnv.mk (fun _ => some 1) (fun _ => some 1) : MarshalEnv Nat Nat)
      (fun _ => 0) (SaveEnv.mk "linux" none "t" none none none)
      ([] : FS Nat Nat) "p" ⟨⟨100, [⟨1, 10, 2⟩, ⟨2, 20, 2⟩]⟩⟩ ⟨⟨100, []⟩⟩
      (by decide) rfl (by decide) (Or.inl (by decide))).1,
    (save_load_roundtrip
      (MarshalEnv.mk (fun _ => some 1) (fun _ => some 1) : MarshalEnv Nat Nat)
      (fun _ => 0) (SaveEnv.mk "linux" none "t" none none none)
      ([] : FS Nat Nat) "p" ⟨⟨100, [⟨1, 10, 2⟩, ⟨2, 20, 2⟩]⟩⟩ ⟨⟨100, []⟩⟩
      (by decide) rfl (by decide) (Or.inl (by decide))).2.1⟩
